import Mathlib

/-!
Shallow embedding of the cart/checkout backend (`src/main.py`, `src/schemas.py`).

Modelling conventions:
- Python floats for money are modelled as `ℚ`; Python's `round(x, 2)` is
  modelled as rounding to the nearest multiple of 1/100 with ties to even
  (`round2` below), which agrees with the source on every value that is an
  exact multiple of a cent.
- The document store (the `database` module, an external collaborator per the
  spec, not present under `src/`) is modelled as in-memory collections with
  Mongo semantics: `find_one` returns the first matching document,
  `update_one` with `upsert=True` replaces the first matching document or
  inserts one merging the equality filter, `delete_one` removes the first
  matching document, and queries filter by field equality or `$in`.
- A `bson.ObjectId(pid)` parse failure inside `get_cart`'s per-item
  `try/except` is subsumed by the "product not found" case: product ids are
  plain strings here, and an id that fails to parse matches no product, so
  both paths skip the entry exactly as the source does.
- HTTP-layer validation performed by FastAPI/pydantic before a handler body
  runs (the `ProductIn` request model) is modelled as an explicit parse step
  in the corresponding `_route` function.
-/

/-- Allowed product categories: both the `AllowedCategory` literal type and the
default `Policy.allowed_categories` in the source denote this list. -/
def allowedCategories : List String := ["bud", "vapes", "edibles"]

/-- Minimum age from the policy (`Policy.minimum_age`). -/
def minimumAge : Nat := 21

/-- A stored product document. Fields are optional because stored documents may
be malformed (the listing code reads them with `.get` and defaults). -/
structure ProductDoc where
  title : Option String
  description : Option String
  price : Option ℚ
  category : Option String
  in_stock : Option Bool
  thc_mg : Option ℚ
  cbd_mg : Option ℚ
deriving DecidableEq, Repr

/-- A cart line item (`CartItem` model: `product_id`, `qty`). The pydantic
bound `1 ≤ qty ≤ 100` is enforced by the framework on request bodies; stored
values are just naturals here. -/
structure CartItem where
  product_id : String
  qty : Nat
deriving DecidableEq, Repr

/-- A stored cart document, keyed by `session_id`. -/
structure CartDoc where
  session_id : String
  items : List CartItem
deriving DecidableEq, Repr

/-- A stored order document (`order_doc` in `checkout`). -/
structure OrderDoc where
  session_id : String
  items : List CartItem
  subtotal : ℚ
  status : String
deriving DecidableEq, Repr

/-- The response model `CartOut`. -/
structure CartOut where
  items : List CartItem
  subtotal : ℚ
deriving DecidableEq, Repr

/-- The response model `OrderOut`. -/
structure OrderOut where
  id : String
  items : List CartItem
  subtotal : ℚ
  status : String
deriving DecidableEq, Repr

/-- The response model `ProductOut` (a parsed product with its id). -/
structure ProductOut where
  id : String
  title : String
  description : Option String
  price : ℚ
  category : String
  in_stock : Bool
  thc_mg : Option ℚ
  cbd_mg : Option ℚ
deriving DecidableEq, Repr

/-- A validated product creation payload (`ProductIn` in `main.py`): note that
pydantic only constrains `category` (a `Literal`); `price`, `thc_mg`, `cbd_mg`
carry no bound in `main.py` (unlike `schemas.py`). -/
structure ProductIn where
  title : String
  description : Option String
  price : ℚ
  category : String
  in_stock : Bool
  thc_mg : Option ℚ
  cbd_mg : Option ℚ
deriving DecidableEq, Repr

/-- The document store: collection-per-entity, in insertion order.
Modelled from the spec: the `database` collaborator module is not under
`src/`; `seq` generates the "new unique id" of `create_document`. -/
structure Store where
  products : List (String × ProductDoc)
  carts : List CartDoc
  orders : List OrderDoc
  seq : Nat
deriving DecidableEq, Repr

/-- Error taxonomy of the HTTP handlers. -/
inductive ApiError where
  | invalidCategory
  | validationError
  | notFound
  | invalidId
  | ageVerificationRequired
  | storeUnavailable
deriving DecidableEq, Repr

/-- HTTP status code of each error, as raised in `main.py` (422 is the
FastAPI/pydantic request-validation status). -/
def ApiError.status : ApiError → Nat
  | .invalidCategory => 400
  | .validationError => 422
  | .notFound => 404
  | .invalidId => 400
  | .ageVerificationRequired => 403
  | .storeUnavailable => 500

/-- `db["product"].find_one with filter on id`: first matching document. -/
def findProduct (s : Store) (pid : String) : Option ProductDoc :=
  (s.products.find? (fun pd => pd.1 == pid)).map (fun pd => pd.2)

/-- `db["cart"].find_one with filter on session_id`: first matching document. -/
def findCart (s : Store) (sid : String) : Option CartDoc :=
  s.carts.find? (fun c => c.session_id == sid)

/-- The raw persisted item list of a session's cart; `[]` when the cart row is
absent (`find_one(...) or \x7b"items": []\x7d`). -/
def rawItems (s : Store) (sid : String) : List CartItem :=
  ((findCart s sid).map (fun c => c.items)).getD []

/-- Replace the first cart document matching `session_id == sid`
(Mongo `update_one` semantics). -/
def replaceFirstCart : List CartDoc → String → CartDoc → List CartDoc
  | [], _, _ => []
  | c :: rest, sid, d =>
    if c.session_id == sid then d :: rest else c :: replaceFirstCart rest sid d

/-- `db["cart"].update_one with upsert=True`: replace the first matching cart
row, or insert a new row (the equality filter contributes `session_id`). -/
def setCart (s : Store) (sid : String) (d : CartDoc) : Store :=
  if (findCart s sid).isSome then
    { s with carts := replaceFirstCart s.carts sid d }
  else
    { s with carts := s.carts ++ [d] }

/-- Whether a cart entry's product is present and in stock
(`prod and prod.get("in_stock", True)` in `get_cart`). -/
def isLive (s : Store) (pid : String) : Bool :=
  match findProduct s pid with
  | some p => p.in_stock.getD true
  | none => false

/-- Price used by the subtotal computation (`float(prod.get("price", 0))`);
zero when the product is absent (such entries are skipped anyway). -/
def priceOf (s : Store) (pid : String) : ℚ :=
  match findProduct s pid with
  | some p => p.price.getD 0
  | none => 0

/-- Round to the nearest integer, ties to even: models Python's `round`. -/
def roundHalfEven (q : ℚ) : ℤ :=
  let f := ⌊q⌋
  let r := q - (f : ℚ)
  if r < 1 / 2 then f
  else if 1 / 2 < r then f + 1
  else if f % 2 = 0 then f else f + 1

/-- `round(x, 2)` in the source: round to the nearest cent. -/
def round2 (q : ℚ) : ℚ := ((roundHalfEven (q * 100) : ℤ) : ℚ) / 100

/-- The per-item loop of `get_cart`: accumulates the filtered item list and
the subtotal over the raw cart items. -/
def get_cart_loop (s : Store) : List CartItem → List CartItem × ℚ → List CartItem × ℚ
  | [], acc => acc
  | it :: rest, acc =>
    match findProduct s it.product_id with
    | some prod =>
      if prod.in_stock.getD true then
        get_cart_loop s rest
          (acc.1 ++ [{ product_id := it.product_id, qty := it.qty }],
           acc.2 + prod.price.getD 0 * (it.qty : ℚ))
      else
        get_cart_loop s rest acc
    | none => get_cart_loop s rest acc

/-- The read-time projection computed by `get_cart`: filtered items and the
rounded filtered subtotal. -/
def cartView (s : Store) (sid : String) : CartOut :=
  let acc := get_cart_loop s (rawItems s sid) ([], 0)
  { items := acc.1, subtotal := round2 acc.2 }

/-- `GET /cart` handler. `avail` is whether the `database` import succeeds;
the handler performs no store writes, so the store is returned unchanged. -/
def get_cart (avail : Bool) (s : Store) (sid : String) :
    Store × Except ApiError CartOut :=
  if !avail then (s, .error .storeUnavailable)
  else (s, .ok (cartView s sid))

/-- The upsert-by-`product_id` loop in `add_to_cart`: overwrite the qty of the
first entry with a matching key, else append. -/
def upsertItem : List CartItem → CartItem → List CartItem
  | [], item => [item]
  | it :: rest, item =>
    if it.product_id == item.product_id then
      { it with qty := item.qty } :: rest
    else
      it :: upsertItem rest item

/-- `POST /cart/items` handler: read (or default) the cart row, upsert the
item by `product_id`, persist with upsert, and return the fresh view. -/
def add_to_cart (avail : Bool) (s : Store) (sid : String) (item : CartItem) :
    Store × Except ApiError CartOut :=
  if !avail then (s, .error .storeUnavailable)
  else
    let cart := (findCart s sid).getD { session_id := sid, items := [] }
    let cart' : CartDoc := { cart with items := upsertItem cart.items item }
    let s' := setCart s sid cart'
    (s', .ok (cartView s' sid))

/-- `DELETE /cart/items/pid` handler: read (or default) the cart row, drop
entries with the given `product_id`, persist with upsert, return the view. -/
def remove_from_cart (avail : Bool) (s : Store) (sid : String) (pid : String) :
    Store × Except ApiError CartOut :=
  if !avail then (s, .error .storeUnavailable)
  else
    let cart := (findCart s sid).getD { session_id := sid, items := [] }
    let cart' : CartDoc := { cart with items := cart.items.filter (fun it => it.product_id != pid) }
    let s' := setCart s sid cart'
    (s', .ok (cartView s' sid))

/-- `POST /checkout` handler: the age check precedes the database import; then
snapshot the raw cart items, compute the filtered subtotal via the same view
as `get_cart`, store an order document, delete the cart row, and return the
order. -/
def checkout (avail : Bool) (ageVerified : Bool) (s : Store) (sid : String) :
    Store × Except ApiError OrderOut :=
  if !ageVerified then (s, .error .ageVerificationRequired)
  else if !avail then (s, .error .storeUnavailable)
  else
    let items := rawItems s sid
    let subtotal := (cartView s sid).subtotal
    let orderId := toString s.seq
    let orderDoc : OrderDoc :=
      { session_id := sid, items := items, subtotal := subtotal, status := "created" }
    let s1 := { s with orders := s.orders ++ [orderDoc], seq := s.seq + 1 }
    let s2 := { s1 with carts := s1.carts.eraseP (fun c => c.session_id == sid) }
    (s2, .ok { id := orderId, items := items, subtotal := subtotal, status := "created" })

/-- Parse a stored document into a `ProductOut` response, as the listing loop
does: a missing `title` or `category`, or a `category` outside the
`AllowedCategory` literal, fails pydantic validation and the document is
skipped; `price` defaults to 0 and `in_stock` to `true`. -/
def parseProductOut (pid : String) (d : ProductDoc) : Option ProductOut :=
  match d.title, d.category with
  | some t, some c =>
    if c ∈ allowedCategories then
      some { id := pid, title := t, description := d.description,
             price := d.price.getD 0, category := c,
             in_stock := d.in_stock.getD true, thc_mg := d.thc_mg, cbd_mg := d.cbd_mg }
    else none
  | _, _ => none

/-- Whether a stored document matches the no-category query filter
`category ∈ allowed_categories` (Mongo `$in`: field present and listed). -/
def matchesAllowed (d : ProductDoc) : Bool :=
  match d.category with
  | some c => allowedCategories.contains c
  | none => false

/-- `GET /products` handler: with the store unavailable it gracefully returns
an empty list; a requested category outside the policy is rejected; otherwise
documents are queried by the category filter and parsed, skipping invalid
documents. -/
def list_products (avail : Bool) (s : Store) (category : Option String) :
    Except ApiError (List ProductOut) :=
  if !avail then .ok []
  else
    match category with
    | some c =>
      if allowedCategories.contains c then
        .ok ((s.products.filter (fun pd => pd.2.category == some c)).filterMap
          (fun pd => parseProductOut pd.1 pd.2))
      else .error .invalidCategory
    | none =>
      .ok ((s.products.filter (fun pd => matchesAllowed pd.2)).filterMap
        (fun pd => parseProductOut pd.1 pd.2))

/-- A raw product-creation request body, before pydantic validation. -/
structure RawProductInput where
  title : Option String
  description : Option String
  price : Option ℚ
  category : Option String
  in_stock : Option Bool
  thc_mg : Option ℚ
  cbd_mg : Option ℚ
deriving DecidableEq, Repr

/-- Pydantic validation of `main.py`'s `ProductIn`: `title` and `price` are
required, `category` must be one of the `AllowedCategory` literals,
`in_stock` defaults to `true`; no numeric bound is imposed on `price`,
`thc_mg` or `cbd_mg`. -/
def parseProductIn (r : RawProductInput) : Option ProductIn :=
  match r.title, r.price, r.category with
  | some t, some p, some c =>
    if c ∈ allowedCategories then
      some { title := t, description := r.description, price := p, category := c,
             in_stock := r.in_stock.getD true, thc_mg := r.thc_mg, cbd_mg := r.cbd_mg }
    else none
  | _, _, _ => none

/-- Validation demanded by `schemas.py`'s `Product` collection schema:
additionally `price ≥ 0` and `thc_mg`/`cbd_mg ≥ 0` when present. -/
def schemasProductValid (r : RawProductInput) : Bool :=
  match r.title, r.price, r.category with
  | some _, some p, some c =>
    allowedCategories.contains c && decide (0 ≤ p)
      && (match r.thc_mg with | some t => decide (0 ≤ t) | none => true)
      && (match r.cbd_mg with | some t => decide (0 ≤ t) | none => true)
  | _, _, _ => false

/-- The stored document for a validated product payload. -/
def productDocOf (p : ProductIn) : ProductDoc :=
  { title := some p.title, description := p.description, price := some p.price,
    category := some p.category, in_stock := some p.in_stock,
    thc_mg := p.thc_mg, cbd_mg := p.cbd_mg }

/-- `POST /products` handler body (payload already validated by FastAPI):
`create_document` assigns a new id and stores the document. -/
def create_product (avail : Bool) (s : Store) (p : ProductIn) :
    Store × Except ApiError String :=
  if !avail then (s, .error .storeUnavailable)
  else
    let pid := toString s.seq
    ({ s with products := s.products ++ [(pid, productDocOf p)], seq := s.seq + 1 },
     .ok pid)

/-- The full `POST /products` route: pydantic request validation, then the
handler body. -/
def create_product_route (avail : Bool) (s : Store) (r : RawProductInput) :
    Store × Except ApiError String :=
  match parseProductIn r with
  | none => (s, .error .validationError)
  | some p => create_product avail s p

/-- A valid BSON ObjectId string: 24 hexadecimal characters. -/
def validObjectId (pid : String) : Bool :=
  pid.length == 24 && pid.toList.all (fun c => c.isDigit
    || ('a' ≤ c && c ≤ 'f') || ('A' ≤ c && c ≤ 'F'))

/-- Replace the first stored product with the given id. -/
def replaceFirstProduct : List (String × ProductDoc) → String → ProductDoc →
    List (String × ProductDoc)
  | [], _, _ => []
  | pd :: rest, pid, d =>
    if pd.1 == pid then (pd.1, d) :: rest else pd :: replaceFirstProduct rest pid d

/-- `PUT /products/pid` handler: database import, then `ObjectId` parse
(`InvalidId` on failure), then `update_one` by id (`NotFound` when no
document matched). -/
def update_product (avail : Bool) (s : Store) (pid : String) (p : ProductIn) :
    Store × Except ApiError Unit :=
  if !avail then (s, .error .storeUnavailable)
  else if !validObjectId pid then (s, .error .invalidId)
  else if (s.products.find? (fun pd => pd.1 == pid)).isSome then
    ({ s with products := replaceFirstProduct s.products pid (productDocOf p) }, .ok ())
  else (s, .error .notFound)

/-- A rational that is an exact multiple of one cent. -/
def TwoDecimal (q : ℚ) : Prop := (q * 100).den = 1

instance (q : ℚ) : Decidable (TwoDecimal q) :=
  inferInstanceAs (Decidable ((q * 100).den = 1))

/-- Every stored product price is an exact multiple of a cent. -/
def PricesTwoDecimal (s : Store) : Prop :=
  ∀ pd ∈ s.products, TwoDecimal (pd.2.price.getD 0)

instance (s : Store) : Decidable (PricesTwoDecimal s) :=
  List.decidableBAll _ _

/-- Number of cart entries bearing a given product key. -/
def keyCount (l : List CartItem) (pid : String) : Nat :=
  l.countP (fun it => it.product_id == pid)

/-- A sample store: one in-stock product, one out-of-stock product, and a
session cart that also references a product id absent from the catalog. -/
def wProdLive : ProductDoc :=
  { title := some "Blue Dream", description := none, price := some 10,
    category := some "bud", in_stock := some true, thc_mg := none, cbd_mg := none }

def wProdOut : ProductDoc :=
  { title := some "Vape Pen", description := none, price := some 25,
    category := some "vapes", in_stock := some false, thc_mg := none, cbd_mg := none }

def wStore : Store :=
  { products := [("p1", wProdLive), ("p2", wProdOut)],
    carts := [{ session_id := "s1",
                items := [{ product_id := "p1", qty := 2 },
                          { product_id := "p2", qty := 1 },
                          { product_id := "ghost", qty := 3 }] }],
    orders := [],
    seq := 0 }

/-- The empty initial store. -/
def emptyStore : Store := { products := [], carts := [], orders := [], seq := 0 }

/-- A syntactically well-formed creation request carrying a negative price. -/
def negPriceInput : RawProductInput :=
  { title := some "Mystery Bud", description := none, price := some (-5),
    category := some "bud", in_stock := none, thc_mg := none, cbd_mg := none }

/-- A store holding one allowed product and one adversarial product whose
category is outside the allowed set. -/
def wAdvStore : Store :=
  { products := [("p1", wProdLive),
                 ("bad", { title := some "Contraband", description := none, price := some 5,
                           category := some "weapons", in_stock := some true,
                           thc_mg := none, cbd_mg := none })],
    carts := [], orders := [], seq := 0 }

/-- The `get_cart` loop computes the live-filtered item list and the sum of
`price * qty` over it, appended to / added onto the accumulator. -/
theorem get_cart_loop_spec (s : Store) (l : List CartItem) (acc : List CartItem × ℚ) :
    get_cart_loop s l acc =
      (acc.1 ++ l.filter (fun it => isLive s it.product_id),
       acc.2 + ((l.filter (fun it => isLive s it.product_id)).map
         (fun it => priceOf s it.product_id * (it.qty : ℚ))).sum) := by
  induction l generalizing acc with
  | nil => simp [get_cart_loop]
  | cons it rest ih =>
    cases hf : findProduct s it.product_id with
    | none =>
      have hl : isLive s it.product_id = false := by simp [isLive, hf]
      simp [get_cart_loop, hf, hl, ih]
    | some prod =>
      by_cases hs : prod.in_stock.getD true = true
      · have hl : isLive s it.product_id = true := by simp [isLive, hf, hs]
        have hp : priceOf s it.product_id = prod.price.getD 0 := by simp [priceOf, hf]
        simp only [get_cart_loop, hf, hs, if_true, ih, hl, List.filter_cons_of_pos,
          List.map_cons, List.sum_cons, hp]
        rw [Prod.mk.injEq]
        constructor
        · simp
        · ring
      · have hl : isLive s it.product_id = false := by
          simp only [isLive, hf]
          simpa using hs
        simp [get_cart_loop, hf, hs, hl, ih]

/-- The cart view is the live-filtered items with the rounded filtered sum. -/
theorem cartView_eq (s : Store) (sid : String) :
    cartView s sid =
      { items := (rawItems s sid).filter (fun it => isLive s it.product_id),
        subtotal := round2 (((rawItems s sid).filter (fun it => isLive s it.product_id)).map
          (fun it => priceOf s it.product_id * (it.qty : ℚ))).sum } := by
  simp [cartView, get_cart_loop_spec]

theorem TwoDecimal.exists_int {q : ℚ} (h : TwoDecimal q) : ∃ n : ℤ, q * 100 = (n : ℚ) := by
  refine ⟨(q * 100).num, ?_⟩
  have h2 := Rat.num_div_den (q * 100)
  rw [h] at h2
  simpa using h2.symm

theorem twoDecimal_zero : TwoDecimal 0 := by
  unfold TwoDecimal
  norm_num

theorem TwoDecimal.add {a b : ℚ} (ha : TwoDecimal a) (hb : TwoDecimal b) :
    TwoDecimal (a + b) := by
  obtain ⟨m, hm⟩ := ha.exists_int
  obtain ⟨n, hn⟩ := hb.exists_int
  unfold TwoDecimal
  have h : (a + b) * 100 = ((m + n : ℤ) : ℚ) := by push_cast; rw [← hm, ← hn]; ring
  rw [h]
  exact Rat.den_intCast _

theorem TwoDecimal.mul_nat {a : ℚ} (ha : TwoDecimal a) (k : ℕ) :
    TwoDecimal (a * (k : ℚ)) := by
  obtain ⟨m, hm⟩ := ha.exists_int
  unfold TwoDecimal
  have h : a * (k : ℚ) * 100 = ((m * k : ℤ) : ℚ) := by push_cast; rw [← hm]; ring
  rw [h]
  exact Rat.den_intCast _

theorem twoDecimal_sum {l : List ℚ} (h : ∀ x ∈ l, TwoDecimal x) : TwoDecimal l.sum := by
  induction l with
  | nil => simpa using twoDecimal_zero
  | cons x t ih =>
    simp only [List.sum_cons]
    exact (h x (by simp)).add (ih fun y hy => h y (by simp [hy]))

/-- Rounding to cents is the identity on exact multiples of a cent. -/
theorem round2_eq_self {q : ℚ} (h : TwoDecimal q) : round2 q = q := by
  obtain ⟨n, hn⟩ := h.exists_int
  have hr : roundHalfEven (q * 100) = n := by
    rw [hn]
    simp [roundHalfEven, Int.floor_intCast]
  unfold round2
  rw [hr]
  field_simp
  linarith [hn]

theorem twoDecimal_priceOf {s : Store} (h : PricesTwoDecimal s) (pid : String) :
    TwoDecimal (priceOf s pid) := by
  cases hf : findProduct s pid with
  | none => simpa [priceOf, hf] using twoDecimal_zero
  | some p =>
    have hp : priceOf s pid = p.price.getD 0 := by simp [priceOf, hf]
    rw [hp]
    unfold findProduct at hf
    cases hfind : s.products.find? (fun pd => pd.1 == pid) with
    | none => rw [hfind] at hf; exact Option.noConfusion hf
    | some pd =>
      rw [hfind] at hf
      simp only [Option.map_some'] at hf
      have hmem := List.mem_of_find?_eq_some hfind
      have hp2 : pd.2 = p := Option.some.inj hf
      rw [← hp2]
      exact h pd hmem

theorem find?_append_of_none {α : Type} {p : α → Bool} {l1 l2 : List α}
    (h : l1.find? p = none) : (l1 ++ l2).find? p = l2.find? p := by
  induction l1 with
  | nil => simp
  | cons a t ih =>
    by_cases ha : p a = true
    · rw [List.find?_cons_of_pos _ ha] at h
      exact Option.noConfusion h
    · rw [List.cons_append, List.find?_cons_of_neg _ ha]
      rw [List.find?_cons_of_neg _ ha] at h
      exact ih h

theorem find?_replaceFirstCart (sid : String) (d : CartDoc)
    (hd : (d.session_id == sid) = true) (l : List CartDoc) :
    (replaceFirstCart l sid d).find? (fun c => c.session_id == sid) =
      if (l.find? (fun c => c.session_id == sid)).isSome then some d else none := by
  induction l with
  | nil => simp [replaceFirstCart]
  | cons c rest ih =>
    by_cases hc : (c.session_id == sid) = true
    · simp [replaceFirstCart, hc, List.find?_cons, hd]
    · simp [replaceFirstCart, hc, List.find?_cons, ih]

theorem findCart_setCart (s : Store) (sid : String) (d : CartDoc)
    (hd : d.session_id = sid) : findCart (setCart s sid d) sid = some d := by
  have hd' : (d.session_id == sid) = true := by simp [hd]
  by_cases h : (findCart s sid).isSome = true
  · unfold setCart
    rw [if_pos h]
    show (replaceFirstCart s.carts sid d).find? (fun c => c.session_id == sid) = some d
    unfold findCart at h
    rw [find?_replaceFirstCart sid d hd' s.carts, if_pos h]
  · unfold setCart
    rw [if_neg h]
    show ((s.carts ++ [d]).find? (fun c => c.session_id == sid)) = some d
    unfold findCart at h
    have hnone : s.carts.find? (fun c => c.session_id == sid) = none := by
      cases hx : s.carts.find? (fun c => c.session_id == sid) with
      | none => rfl
      | some c => rw [hx] at h; simp at h
    rw [find?_append_of_none hnone]
    simp [List.find?_cons, hd']

theorem rawItems_setCart (s : Store) (sid : String) (d : CartDoc)
    (hd : d.session_id = sid) : rawItems (setCart s sid d) sid = d.items := by
  simp [rawItems, findCart_setCart s sid d hd]

theorem findCart_session_id {s : Store} {sid : String} {c : CartDoc}
    (h : findCart s sid = some c) : c.session_id = sid := by
  unfold findCart at h
  have := List.find?_some h
  simpa using this

theorem defaultCart_session_id (s : Store) (sid : String) :
    ((findCart s sid).getD { session_id := sid, items := [] }).session_id = sid := by
  cases h : findCart s sid with
  | none => simp
  | some c => simpa using findCart_session_id h

theorem defaultCart_items (s : Store) (sid : String) :
    ((findCart s sid).getD { session_id := sid, items := [] }).items = rawItems s sid := by
  cases h : findCart s sid <;> simp [rawItems, h]

/-- After an add, the persisted item list of the session is exactly the
upsert of the previous raw item list. -/
theorem rawItems_add_to_cart (s : Store) (sid : String) (item : CartItem) :
    rawItems ((add_to_cart true s sid item).1) sid = upsertItem (rawItems s sid) item := by
  unfold add_to_cart
  simp only [Bool.not_true, Bool.false_eq_true, if_false]
  rw [rawItems_setCart]
  · rw [defaultCart_items]
  · exact defaultCart_session_id s sid

/-- After a remove, the persisted item list of the session is exactly the
filtered previous raw item list. -/
theorem rawItems_remove_from_cart (s : Store) (sid : String) (pid : String) :
    rawItems ((remove_from_cart true s sid pid).1) sid =
      (rawItems s sid).filter (fun it => it.product_id != pid) := by
  unfold remove_from_cart
  simp only [Bool.not_true, Bool.false_eq_true, if_false]
  rw [rawItems_setCart]
  · rw [defaultCart_items]
  · exact defaultCart_session_id s sid

theorem findCart_remove_from_cart (s : Store) (sid : String) (pid : String) :
    (findCart ((remove_from_cart true s sid pid).1) sid).isSome = true := by
  unfold remove_from_cart
  simp only [Bool.not_true, Bool.false_eq_true, if_false]
  rw [findCart_setCart]
  · rfl
  · exact defaultCart_session_id s sid

theorem find?_eraseP_of_countP_le_one {α : Type} (p : α → Bool) (l : List α)
    (h : l.countP p ≤ 1) : (l.eraseP p).find? p = none := by
  induction l with
  | nil => simp
  | cons a t ih =>
    by_cases ha : p a = true
    · rw [List.eraseP_cons_of_pos ha]
      rw [List.find?_eq_none]
      intro x hx
      have hcount : t.countP p = 0 := by
        rw [List.countP_cons_of_pos _ _ ha] at h
        omega
      have := List.countP_eq_zero.mp hcount x hx
      simpa using this
    · rw [List.eraseP_cons_of_neg ha]
      rw [List.find?_cons_of_neg _ ha]
      apply ih
      rw [List.countP_cons_of_neg _ _ ha] at h
      exact h

theorem keyCount_upsertItem (l : List CartItem) (pid : String) (q : Nat)
    (h : keyCount l pid ≤ 1) :
    keyCount (upsertItem l { product_id := pid, qty := q }) pid = 1 := by
  induction l with
  | nil => simp [upsertItem, keyCount]
  | cons it rest ih =>
    by_cases hit : (it.product_id == pid) = true
    · simp only [upsertItem, hit, if_true]
      unfold keyCount at h ⊢
      simp only [List.countP_cons, hit, if_true] at h ⊢
      omega
    · have hit' : (it.product_id == pid) = false := by simpa using hit
      simp only [upsertItem, hit', Bool.false_eq_true, if_false]
      unfold keyCount at h ⊢
      simp only [List.countP_cons, hit', Bool.false_eq_true, if_false, add_zero] at h ⊢
      exact ih h

theorem qty_upsertItem (l : List CartItem) (pid : String) (q : Nat)
    (h : keyCount l pid ≤ 1) :
    ∀ x ∈ upsertItem l { product_id := pid, qty := q }, x.product_id = pid → x.qty = q := by
  induction l with
  | nil =>
    intro x hx _
    simp [upsertItem] at hx
    rw [hx]
  | cons it rest ih =>
    by_cases hit : (it.product_id == pid) = true
    · intro x hx hpx
      simp only [upsertItem, hit, if_true, List.mem_cons] at hx
      cases hx with
      | inl hx => rw [hx]
      | inr hx =>
        exfalso
        have h0 : keyCount rest pid = 0 := by
          unfold keyCount at h ⊢
          simp only [List.countP_cons, hit, if_true] at h
          omega
        have := List.countP_eq_zero.mp h0 x hx
        simp [hpx] at this
    · have hit' : (it.product_id == pid) = false := by simpa using hit
      intro x hx hpx
      simp only [upsertItem, hit', Bool.false_eq_true, if_false, List.mem_cons] at hx
      cases hx with
      | inl hx =>
        exfalso
        rw [hx] at hpx
        simp [hpx] at hit'
      | inr hx =>
        have hr : keyCount rest pid ≤ 1 := by
          unfold keyCount at h
          simp only [List.countP_cons, hit', Bool.false_eq_true, if_false, add_zero] at h
          exact h
        exact ih hr x hx hpx

theorem upsertItem_of_absent (l : List CartItem) (item : CartItem)
    (h : ∀ x ∈ l, x.product_id ≠ item.product_id) :
    upsertItem l item = l ++ [item] := by
  induction l with
  | nil => simp [upsertItem]
  | cons it rest ih =>
    have hne : (it.product_id == item.product_id) = false := by
      simpa using h it (by simp)
    simp [upsertItem, hne, ih (fun x hx => h x (by simp [hx]))]

/-- A cart view over an empty raw item list is empty with subtotal 0. -/
theorem cartView_of_rawItems_nil (s : Store) (sid : String)
    (h : rawItems s sid = []) : cartView s sid = { items := [], subtotal := 0 } := by
  unfold cartView
  rw [h]
  show ({ items := ([] : List CartItem), subtotal := round2 0 } : CartOut) = _
  rw [round2_eq_self twoDecimal_zero]

theorem cartView_of_findCart_none (s : Store) (sid : String)
    (h : findCart s sid = none) : cartView s sid = { items := [], subtotal := 0 } :=
  cartView_of_rawItems_nil s sid (by simp [rawItems, h])

/-- C1: a checkout request whose session does not carry a true
`age_verified_21` flag fails with `AgeVerificationRequired` — a 4xx client
error (HTTP 403) — and returns the store completely unchanged (no cart
mutation, no order creation), whether or not the database is available. -/
theorem checkout_unverified_fails_without_mutation :
    (∀ avail : Bool, ∀ s : Store, ∀ sid : String,
      checkout avail false s sid = (s, .error .ageVerificationRequired)) ∧
    ApiError.ageVerificationRequired.status = 403 ∧
    400 ≤ ApiError.ageVerificationRequired.status ∧
    ApiError.ageVerificationRequired.status < 500 := by
  refine ⟨fun avail s sid => rfl, rfl, ?_, ?_⟩ <;> norm_num [ApiError.status]

/-- C2: for every session and stored cart over a store of decimal (whole-cent)
prices, read returns exactly the entries whose product exists and is in
stock, with subtotal the sum of `price * qty` over those entries — missing or
out-of-stock entries appear in neither — and the store (hence the persisted
cart document) is returned unchanged. -/
theorem get_cart_filtered_subtotal (s : Store) (sid : String)
    (hp : PricesTwoDecimal s) :
    get_cart true s sid =
      (s, .ok { items := (rawItems s sid).filter (fun it => isLive s it.product_id),
                subtotal := (((rawItems s sid).filter (fun it => isLive s it.product_id)).map
                  (fun it => priceOf s it.product_id * (it.qty : ℚ))).sum }) := by
  have hsum : TwoDecimal (((rawItems s sid).filter (fun it => isLive s it.product_id)).map
      (fun it => priceOf s it.product_id * (it.qty : ℚ))).sum := by
    apply twoDecimal_sum
    intro x hx
    obtain ⟨it, hit, hxe⟩ := List.mem_map.mp hx
    rw [← hxe]
    exact (twoDecimal_priceOf hp it.product_id).mul_nat it.qty
  unfold get_cart
  simp only [Bool.not_true, Bool.false_eq_true, if_false]
  rw [cartView_eq, round2_eq_self hsum]

/-- C2 witness: the sample store has whole-cent prices and the theorem applies
to its session. -/
theorem get_cart_filtered_subtotal_witness :
    PricesTwoDecimal wStore ∧
    get_cart true wStore "s1" =
      (wStore, .ok { items := (rawItems wStore "s1").filter (fun it => isLive wStore it.product_id),
                     subtotal := (((rawItems wStore "s1").filter (fun it => isLive wStore it.product_id)).map
                       (fun it => priceOf wStore it.product_id * (it.qty : ℚ))).sum }) := by
  have hp : PricesTwoDecimal wStore := by
    intro pd hpd
    simp only [wStore, List.mem_cons, List.not_mem_nil, or_false] at hpd
    rcases hpd with h | h <;> rw [h] <;> unfold TwoDecimal <;>
      norm_num [wProdLive, wProdOut]
  exact ⟨hp, get_cart_filtered_subtotal wStore "s1" hp⟩

/-- C3: an age-verified checkout creates an order carrying the raw persisted
item list (stale entries included) while its subtotal is the filtered
read-projection subtotal, both on the returned order and on the stored order
document. -/
theorem checkout_raw_items_filtered_subtotal (s : Store) (sid : String) :
    ∃ s' : Store, ∃ ord : OrderOut,
      checkout true true s sid = (s', .ok ord) ∧
      ord.items = rawItems s sid ∧
      ord.subtotal = (cartView s sid).subtotal ∧
      ({ session_id := sid, items := rawItems s sid,
         subtotal := (cartView s sid).subtotal, status := "created" } : OrderDoc) ∈ s'.orders := by
  refine ⟨_, _, rfl, rfl, rfl, ?_⟩
  show _ ∈ s.orders ++ [_]
  simp

/-- C4: for an age-verified session whose store respects the one-cart-per-
session keying, checkout succeeds (also on an absent or empty cart, which is
treated as empty rather than rejected), deletes the cart row so a subsequent
read returns an empty item list with subtotal 0, and the order's subtotal is
the pre-checkout filtered subtotal. -/
theorem checkout_clears_cart (s : Store) (sid : String)
    (h : s.carts.countP (fun c => c.session_id == sid) ≤ 1) :
    ∃ s' : Store, ∃ ord : OrderOut,
      checkout true true s sid = (s', .ok ord) ∧
      cartView s' sid = { items := [], subtotal := 0 } ∧
      ord.subtotal = (cartView s sid).subtotal ∧
      (findCart s sid = none → ord.items = [] ∧ ord.subtotal = 0) := by
  refine ⟨_, _, rfl, ?_, rfl, ?_⟩
  · apply cartView_of_findCart_none
    show (s.carts.eraseP (fun c => c.session_id == sid)).find?
      (fun c => c.session_id == sid) = none
    exact find?_eraseP_of_countP_le_one _ _ h
  · intro hNone
    constructor
    · show rawItems s sid = []
      simp [rawItems, hNone]
    · show (cartView s sid).subtotal = 0
      rw [cartView_of_findCart_none s sid hNone]

/-- C4 witness: the theorem applies to the sample store's session. -/
theorem checkout_clears_cart_witness :
    wStore.carts.countP (fun c => c.session_id == "s1") ≤ 1 ∧
    (∃ s' : Store, ∃ ord : OrderOut,
      checkout true true wStore "s1" = (s', .ok ord) ∧
      cartView s' "s1" = { items := [], subtotal := 0 } ∧
      ord.subtotal = (cartView wStore "s1").subtotal ∧
      (findCart wStore "s1" = none → ord.items = [] ∧ ord.subtotal = 0)) :=
  ⟨by decide, checkout_clears_cart wStore "s1" (by decide)⟩

/-- After an add, the session's cart row holds exactly the upsert of its
previous raw item list (the row is created when previously absent). -/
theorem findCart_add_to_cart (s : Store) (sid : String) (item : CartItem) :
    findCart ((add_to_cart true s sid item).1) sid =
      some { session_id := sid, items := upsertItem (rawItems s sid) item } := by
  cases hfc : findCart s sid with
  | none =>
    have hraw : rawItems s sid = [] := by simp [rawItems, hfc]
    unfold add_to_cart
    simp only [Bool.not_true, Bool.false_eq_true, if_false, hfc, Option.getD_none]
    rw [findCart_setCart s sid _ rfl, hraw]
  | some c =>
    have hcs : c.session_id = sid := findCart_session_id hfc
    have hraw : rawItems s sid = c.items := by simp [rawItems, hfc]
    unfold add_to_cart
    simp only [Bool.not_true, Bool.false_eq_true, if_false, hfc, Option.getD_some]
    rw [findCart_setCart s sid
      { session_id := c.session_id, items := upsertItem c.items item } hcs, hraw, hcs]

/-- C5: with the cart's dedup-by-key invariant (at most one entry per
product_id), two adds of the same product_id leave exactly one entry for it,
bearing the later quantity; a first add of an absent key appends it, and the
cart row is created when absent. -/
theorem add_to_cart_last_write_wins (s : Store) (sid : String) (pid : String)
    (q1 q2 : Nat) (h : keyCount (rawItems s sid) pid ≤ 1) :
    keyCount (rawItems ((add_to_cart true ((add_to_cart true s sid
        { product_id := pid, qty := q1 }).1) sid { product_id := pid, qty := q2 }).1) sid) pid = 1 ∧
    (∀ x ∈ rawItems ((add_to_cart true ((add_to_cart true s sid
        { product_id := pid, qty := q1 }).1) sid { product_id := pid, qty := q2 }).1) sid,
      x.product_id = pid → x.qty = q2) ∧
    (keyCount (rawItems s sid) pid = 0 →
      rawItems ((add_to_cart true s sid { product_id := pid, qty := q1 }).1) sid =
        rawItems s sid ++ [{ product_id := pid, qty := q1 }]) ∧
    (findCart s sid = none →
      findCart ((add_to_cart true s sid { product_id := pid, qty := q1 }).1) sid =
        some { session_id := sid, items := [{ product_id := pid, qty := q1 }] }) := by
  have h1 := rawItems_add_to_cart s sid { product_id := pid, qty := q1 }
  have hcount1 : keyCount (rawItems ((add_to_cart true s sid
      { product_id := pid, qty := q1 }).1) sid) pid = 1 := by
    rw [h1]
    exact keyCount_upsertItem _ _ _ h
  have h2 := rawItems_add_to_cart ((add_to_cart true s sid
      { product_id := pid, qty := q1 }).1) sid { product_id := pid, qty := q2 }
  refine ⟨?_, ?_, ?_, ?_⟩
  · rw [h2]
    exact keyCount_upsertItem _ _ _ hcount1.le
  · rw [h2]
    exact qty_upsertItem _ _ _ hcount1.le
  · intro h0
    rw [h1]
    apply upsertItem_of_absent
    intro x hx
    unfold keyCount at h0
    have hx2 := List.countP_eq_zero.mp h0 x hx
    simpa using hx2
  · intro hNone
    rw [findCart_add_to_cart]
    have hraw : rawItems s sid = [] := by simp [rawItems, hNone]
    rw [hraw]
    rfl

/-- C5 witness: two adds of product p1 on the sample store. -/
theorem add_to_cart_last_write_wins_witness :
    keyCount (rawItems wStore "s1") "p1" ≤ 1 ∧
    (keyCount (rawItems ((add_to_cart true ((add_to_cart true wStore "s1"
        { product_id := "p1", qty := 4 }).1) "s1" { product_id := "p1", qty := 7 }).1) "s1") "p1" = 1 ∧
    (∀ x ∈ rawItems ((add_to_cart true ((add_to_cart true wStore "s1"
        { product_id := "p1", qty := 4 }).1) "s1" { product_id := "p1", qty := 7 }).1) "s1",
      x.product_id = "p1" → x.qty = 7) ∧
    (keyCount (rawItems wStore "s1") "p1" = 0 →
      rawItems ((add_to_cart true wStore "s1" { product_id := "p1", qty := 4 }).1) "s1" =
        rawItems wStore "s1" ++ [{ product_id := "p1", qty := 4 }]) ∧
    (findCart wStore "s1" = none →
      findCart ((add_to_cart true wStore "s1" { product_id := "p1", qty := 4 }).1) "s1" =
        some { session_id := "s1", items := [{ product_id := "p1", qty := 4 }] })) :=
  ⟨by decide, add_to_cart_last_write_wins wStore "s1" "p1" 4 7 (by decide)⟩

/-- C6: remove deletes exactly the entries carrying the given product_id, is
a successful no-op when none matches, and the cart row survives (it is even
created when absent) — the response is the ok view of the resulting state,
never an error. -/
theorem remove_from_cart_spec (s : Store) (sid : String) (pid : String) :
    rawItems ((remove_from_cart true s sid pid).1) sid =
      (rawItems s sid).filter (fun it => it.product_id != pid) ∧
    ((∀ x ∈ rawItems s sid, x.product_id ≠ pid) →
      rawItems ((remove_from_cart true s sid pid).1) sid = rawItems s sid) ∧
    (findCart ((remove_from_cart true s sid pid).1) sid).isSome = true ∧
    (remove_from_cart true s sid pid).2 =
      .ok (cartView ((remove_from_cart true s sid pid).1) sid) := by
  refine ⟨rawItems_remove_from_cart s sid pid, ?_, findCart_remove_from_cart s sid pid, rfl⟩
  intro hall
  rw [rawItems_remove_from_cart s sid pid]
  apply List.filter_eq_self.mpr
  intro a ha
  simpa using hall a ha

/-- C6 witness: removing p1 from the sample store's session. -/
theorem remove_from_cart_spec_witness :
    rawItems ((remove_from_cart true wStore "s1" "p1").1) "s1" =
      (rawItems wStore "s1").filter (fun it => it.product_id != "p1") ∧
    ((∀ x ∈ rawItems wStore "s1", x.product_id ≠ "p1") →
      rawItems ((remove_from_cart true wStore "s1" "p1").1) "s1" = rawItems wStore "s1") ∧
    (findCart ((remove_from_cart true wStore "s1" "p1").1) "s1").isSome = true ∧
    (remove_from_cart true wStore "s1" "p1").2 =
      .ok (cartView ((remove_from_cart true wStore "s1" "p1").1) "s1") :=
  remove_from_cart_spec wStore "s1" "p1"

/-- C7: contrary to the claim, product creation does not validate
`price ≥ 0` (nor `thc_mg`/`cbd_mg ≥ 0`): `main.py`'s `ProductIn` request model
carries no numeric bound, so a negative-price payload is accepted and stored
and a fresh id is returned, although the repository's own `schemas.py`
`Product` schema declares `price ≥ 0` and rejects the same input. -/
theorem create_product_accepts_negative_price :
    (create_product_route true emptyStore negPriceInput).2 = .ok "0" ∧
    ((create_product_route true emptyStore negPriceInput).1.products.map
      (fun pd => pd.2.price)) = [some (-5)] ∧
    schemasProductValid negPriceInput = false := by
  refine ⟨rfl, rfl, ?_⟩
  have hneg : ¬ ((0:ℚ) ≤ -5) := by norm_num
  simp [schemasProductValid, negPriceInput, allowedCategories, hneg]

/-- C8 counterexample: with the document store unavailable, the catalog
listing succeeds with an empty list (HTTP 200) instead of failing with a
server error. -/
theorem list_products_unavailable_succeeds :
    list_products false emptyStore none = .ok ([] : List ProductOut) ∧
    (list_products false emptyStore none).isOk = true :=
  ⟨rfl, rfl⟩

/-- C8 amended: when the document store is unavailable every modelled
operation except catalog listing fails with StoreUnavailable (HTTP 500, a
server error) — product create and update, cart read, cart add, cart remove,
and age-verified checkout — while catalog listing instead succeeds with an
empty list. -/
theorem store_unavailable_behaviour :
    (∀ s : Store, ∀ cat : Option String, list_products false s cat = .ok []) ∧
    (∀ s : Store, ∀ p : ProductIn, (create_product false s p).2 = .error .storeUnavailable) ∧
    (∀ s : Store, ∀ pid : String, ∀ p : ProductIn,
      (update_product false s pid p).2 = .error .storeUnavailable) ∧
    (∀ s : Store, ∀ sid : String, (get_cart false s sid).2 = .error .storeUnavailable) ∧
    (∀ s : Store, ∀ sid : String, ∀ item : CartItem,
      (add_to_cart false s sid item).2 = .error .storeUnavailable) ∧
    (∀ s : Store, ∀ sid pid : String,
      (remove_from_cart false s sid pid).2 = .error .storeUnavailable) ∧
    (∀ s : Store, ∀ sid : String, (checkout false true s sid).2 = .error .storeUnavailable) ∧
    ApiError.storeUnavailable.status = 500 :=
  ⟨fun _ _ => rfl, fun _ _ => rfl, fun _ _ _ => rfl, fun _ _ => rfl,
   fun _ _ _ => rfl, fun _ _ _ => rfl, fun _ _ => rfl, rfl⟩

/-- C9: a listing with no category parameter returns only products whose
category lies in the allowed set, for every stored catalog state, including
states holding products of disallowed categories. -/
theorem list_products_only_allowed (s : Store) (items : List ProductOut)
    (h : list_products true s none = .ok items) :
    ∀ p ∈ items, p.category ∈ allowedCategories := by
  intro p hp
  have hitems : items = (s.products.filter (fun pd => matchesAllowed pd.2)).filterMap
      (fun pd => parseProductOut pd.1 pd.2) := by
    unfold list_products at h
    simp only [Bool.not_true, Bool.false_eq_true, if_false] at h
    exact (Except.ok.inj h).symm
  rw [hitems] at hp
  obtain ⟨pd, hpd, hparse⟩ := List.mem_filterMap.mp hp
  unfold parseProductOut at hparse
  cases ht : pd.2.title with
  | none =>
    simp only [ht] at hparse
    exact Option.noConfusion hparse
  | some t =>
    cases hc : pd.2.category with
    | none =>
      simp only [ht, hc] at hparse
      exact Option.noConfusion hparse
    | some c =>
      simp only [ht, hc] at hparse
      by_cases hin : c ∈ allowedCategories
      · rw [if_pos hin] at hparse
        have hpe := Option.some.inj hparse
        rw [← hpe]
        simpa using hin
      · rw [if_neg hin] at hparse
        exact Option.noConfusion hparse

/-- C9 witness: the adversarial store lists only the allowed product. -/
theorem list_products_only_allowed_witness :
    list_products true wAdvStore none =
      .ok [{ id := "p1", title := "Blue Dream", description := none, price := 10,
             category := "bud", in_stock := true, thc_mg := none, cbd_mg := none }] ∧
    ∀ p ∈ [({ id := "p1", title := "Blue Dream", description := none, price := 10,
              category := "bud", in_stock := true, thc_mg := none,
              cbd_mg := none } : ProductOut)], p.category ∈ allowedCategories := by
  have h : list_products true wAdvStore none =
      .ok [{ id := "p1", title := "Blue Dream", description := none, price := 10,
             category := "bud", in_stock := true, thc_mg := none, cbd_mg := none }] := rfl
  exact ⟨h, list_products_only_allowed wAdvStore _ h⟩

/-- C10: removing any product from a session with no cart row persists a new
empty cart row for that session — the absent-to-active transition can be
caused by remove — and still answers with the empty view, subtotal 0. -/
theorem remove_creates_cart_row (s : Store) (sid : String) (pid : String)
    (h : findCart s sid = none) :
    (remove_from_cart true s sid pid).1.carts =
      s.carts ++ [{ session_id := sid, items := [] }] ∧
    findCart ((remove_from_cart true s sid pid).1) sid =
      some { session_id := sid, items := [] } ∧
    (remove_from_cart true s sid pid).2 = .ok { items := [], subtotal := 0 } := by
  have h1 : (remove_from_cart true s sid pid).1.carts =
      s.carts ++ [{ session_id := sid, items := [] }] := by
    simp [remove_from_cart, setCart, h]
  have hraw0 : rawItems s sid = [] := by simp [rawItems, h]
  have hraw : rawItems ((remove_from_cart true s sid pid).1) sid = [] := by
    rw [rawItems_remove_from_cart, hraw0]
    rfl
  refine ⟨h1, ?_, ?_⟩
  · show ((remove_from_cart true s sid pid).1.carts).find?
      (fun c => c.session_id == sid) = some { session_id := sid, items := [] }
    rw [h1, find?_append_of_none h]
    simp [List.find?_cons]
  · have hv : (remove_from_cart true s sid pid).2 =
        .ok (cartView ((remove_from_cart true s sid pid).1) sid) := rfl
    rw [hv, cartView_of_rawItems_nil _ _ hraw]

/-- C10 witness: removing from a session with no cart row in the sample
store. -/
theorem remove_creates_cart_row_witness :
    findCart wStore "s9" = none ∧
    ((remove_from_cart true wStore "s9" "p1").1.carts =
      wStore.carts ++ [{ session_id := "s9", items := [] }] ∧
    findCart ((remove_from_cart true wStore "s9" "p1").1) "s9" =
      some { session_id := "s9", items := [] } ∧
    (remove_from_cart true wStore "s9" "p1").2 = .ok { items := [], subtotal := 0 }) :=
  ⟨by decide, remove_creates_cart_row wStore "s9" "p1" (by decide)⟩
